import Mathlib

/-!
Verification of the resource-discovery and fallback key-derivation engine of
the `v30` Steam tools generator (`steam_tools_generator.py`,
`advanced_steam_ai.py`).

The Lean definitions below are a shallow embedding of the Python source:
pure functions become Lean functions, the outcomes of network calls and of
the random generator become explicit parameters, and Python exceptions
become `Except` values or explicit flags mirroring the source's
`try/except` structure.  Machine-level details that the claims do not
depend on (IEEE floats for confidences, unicode corner cases of `str`
methods) are modelled exactly where they matter and noted where they are
idealised: confidences are embedded as exact rationals, and string
helpers are modelled for ASCII data, which is the only data the engine
ever hashes or pads (numeric id strings and hex digests).
-/

/-! ## Small string helpers (ASCII models of the Python `str` methods used) -/

/-- The sixteen lowercase hex digit characters, in value order. -/
def hexDigits : List Char := "0123456789abcdef".data

/-- Character for one hex digit value (lowercase, as `hexdigest`/`str` emit). -/
def hexChar (n : Nat) : Char := hexDigits.getD n '0'

/-- Decimal digit characters of `n`, most significant first, computed with
structural fuel so that the kernel can evaluate it.  Empty for `n = 0`. -/
def decimalDigitsAux : Nat → Nat → List Char
  | 0, _ => []
  | fuel + 1, n => if n = 0 then [] else decimalDigitsAux fuel (n / 10) ++ [hexChar (n % 10)]

/-- Model of Python `str` on a non-negative integer. -/
def pyStr (n : Nat) : String := if n = 0 then "0" else ⟨decimalDigitsAux n n⟩

/-- Model of Python `str.zfill(w)` for the digit strings the source pads
(no sign handling is needed for them). -/
def zfill (w : Nat) (s : String) : String := ⟨List.replicate (w - s.data.length) '0' ++ s.data⟩

/-- Boolean shape check for a 64-character lowercase-hex string,
Python regex `^[0-9a-f]{64}$`. -/
def is64LowerHexB (s : String) : Bool :=
  s.data.length == 64 && s.data.all (fun c => hexDigits.contains c)

/-! ## SHA-256 (`hashlib.sha256(...).hexdigest()`), over `Nat` words mod 2^32 -/

/-- Reduce to a 32-bit word. -/
def w32 (n : Nat) : Nat := n % 4294967296

/-- Right rotation of a 32-bit word. -/
def rotr32 (k n : Nat) : Nat := w32 ((n >>> k) ||| (n <<< (32 - k)))

/-- The SHA-256 `Ch` function. -/
def shaCh (x y z : Nat) : Nat := w32 ((x &&& y) ^^^ ((x ^^^ 4294967295) &&& z))

/-- The SHA-256 `Maj` function. -/
def shaMaj (x y z : Nat) : Nat := w32 ((x &&& y) ^^^ (x &&& z) ^^^ (y &&& z))

/-- The SHA-256 big sigma-0 function. -/
def bigSigma0 (x : Nat) : Nat := rotr32 2 x ^^^ rotr32 13 x ^^^ rotr32 22 x

/-- The SHA-256 big sigma-1 function. -/
def bigSigma1 (x : Nat) : Nat := rotr32 6 x ^^^ rotr32 11 x ^^^ rotr32 25 x

/-- The SHA-256 small sigma-0 function. -/
def smallSigma0 (x : Nat) : Nat := rotr32 7 x ^^^ rotr32 18 x ^^^ (x >>> 3)

/-- The SHA-256 small sigma-1 function. -/
def smallSigma1 (x : Nat) : Nat := rotr32 17 x ^^^ rotr32 19 x ^^^ (x >>> 10)

/-- The 64 SHA-256 round constants. -/
def k256 : List Nat :=
  [1116352408, 1899447441, 3049323471, 3921009573, 961987163, 1508970993,
   2453635748, 2870763221, 3624381080, 310598401, 607225278, 1426881987,
   1925078388, 2162078206, 2614888103, 3248222580, 3835390401, 4022224774,
   264347078, 604807628, 770255983, 1249150122, 1555081692, 1996064986,
   2554220882, 2821834349, 2952996808, 3210313671, 3336571891, 3584528711,
   113926993, 338241895, 666307205, 773529912, 1294757372, 1396182291,
   1695183700, 1986661051, 2177026350, 2456956037, 2730485921, 2820302411,
   3259730800, 3345764771, 3516065817, 3600352804, 4094571909, 275423344,
   430227734, 506948616, 659060556, 883997877, 958139571, 1322822218,
   1537002063, 1747873779, 1955562222, 2024104815, 2227730452, 2361852424,
   2428436474, 2756734187, 3204031479, 3329325298]

/-- The eight SHA-256 initial hash words. -/
def initH : List Nat :=
  [1779033703, 3144134277, 1013904242, 2773480762,
   1359893119, 2600822924, 528734635, 1541459225]

/-- Big-endian bytes of the 64-bit message length. -/
def lenBytes (n : Nat) : List Nat := (List.range 8).map (fun i => (n >>> (8 * (7 - i))) &&& 255)

/-- SHA-256 padding of a byte message. -/
def padMessage (msg : List Nat) : List Nat :=
  msg ++ 0x80 :: List.replicate ((119 - msg.length % 64) % 64) 0 ++ lenBytes (8 * msg.length)

/-- Big-endian word from four bytes. -/
def bytesToWord (bs : List Nat) : Nat := bs.foldl (fun a b => a * 256 + b) 0

/-- The sixteen message words of block `i` of a padded message. -/
def blockWords (padded : List Nat) (i : Nat) : List Nat :=
  (List.range 16).map (fun j => bytesToWord ((padded.drop (64 * i + 4 * j)).take 4))

/-- Extension of the 16 block words to the 64-entry message schedule. -/
def extendSchedule (w16 : List Nat) : List Nat :=
  (List.range 48).foldl
    (fun ws t =>
      ws ++ [w32 (smallSigma1 (ws.getD (t + 14) 0) + ws.getD (t + 9) 0 +
                  smallSigma0 (ws.getD (t + 1) 0) + ws.getD t 0)])
    w16

/-- The eight SHA-256 working registers. -/
structure Sha256Regs where
  a : Nat
  b : Nat
  c : Nat
  d : Nat
  e : Nat
  f : Nat
  g : Nat
  h : Nat

/-- One SHA-256 compression round. -/
def sha256Round (r : Sha256Regs) (kw : Nat × Nat) : Sha256Regs :=
  let t1 := w32 (r.h + bigSigma1 r.e + shaCh r.e r.f r.g + kw.1 + kw.2)
  let t2 := w32 (bigSigma0 r.a + shaMaj r.a r.b r.c)
  ⟨w32 (t1 + t2), r.a, r.b, r.c, w32 (r.d + t1), r.e, r.f, r.g⟩

/-- Compression of one 16-word block into the running hash words. -/
def compressBlock (hs ws16 : List Nat) : List Nat :=
  let ws := extendSchedule ws16
  let r0 : Sha256Regs := ⟨hs.getD 0 0, hs.getD 1 0, hs.getD 2 0, hs.getD 3 0,
                          hs.getD 4 0, hs.getD 5 0, hs.getD 6 0, hs.getD 7 0⟩
  let r := (k256.zip ws).foldl sha256Round r0
  [w32 (hs.getD 0 0 + r.a), w32 (hs.getD 1 0 + r.b), w32 (hs.getD 2 0 + r.c),
   w32 (hs.getD 3 0 + r.d), w32 (hs.getD 4 0 + r.e), w32 (hs.getD 5 0 + r.f),
   w32 (hs.getD 6 0 + r.g), w32 (hs.getD 7 0 + r.h)]

/-- The eight SHA-256 digest words of a byte message. -/
def sha256Words (msg : List Nat) : List Nat :=
  let padded := padMessage msg
  (List.range (padded.length / 64)).foldl (fun hs i => compressBlock hs (blockWords padded i)) initH

/-- Lowercase hex characters of one 32-bit word, most significant nibble first. -/
def wordHex (w : Nat) : List Char := (List.range 8).map (fun i => hexChar ((w >>> (4 * (7 - i))) &&& 15))

/-- Bytes of a string.  The source hashes `s.encode()` (UTF-8); the strings the
engine hashes are ASCII id strings, for which the UTF-8 bytes are the code
points. -/
def strBytes (s : String) : List Nat := s.data.map Char.toNat

/-- Model of `hashlib.sha256(s.encode()).hexdigest()`. -/
def sha256hex (s : String) : String := ⟨((sha256Words (strBytes s)).map wordHex).flatten⟩

/-! ## Fallback key derivation
(`_generate_encryption_key`, `_fallback_key_generation`, `ai_generate_advanced_key`) -/

/-- Model of `AdvancedSteamAI._fallback_key_generation`:
`hashlib.sha256(f"(app_id)(depot_id)".encode()).hexdigest()`. -/
def fallback_key_generation (app_id depot_id : String) : String := sha256hex (app_id ++ depot_id)

/-- Model of `AdvancedSteamAI.ai_generate_advanced_key` in the configuration in
which the LM Studio collaborator is unavailable (`self.lm.is_available()`
false): the function immediately returns `self._fallback_key_generation`.
The LM-available path delegates to an external language model and is outside
the deterministic fallback ensemble. -/
def ai_generate_advanced_key_noLM (app_id depot_id : String) : String :=
  fallback_key_generation app_id depot_id

/-- Model of `_generate_encryption_key` on its traditional path (taken whenever
the LM Studio collaborator is absent, which is also the only path with no
external dependency).  The four `algorithms` lambdas are SHA-256 hexdigests of
the listed inputs; `int(time.time())` becomes the explicit parameter `now`.
The loop returns the first algorithm output `key` passing
`if key and len(key) == 64`, and the final fallback hashes `app_id + depot_id`.
None of the lambdas can raise, so the `try/except` around each is inert. -/
def generate_encryption_key (app_id depot_id game_name : String) (now : Nat) : String :=
  let algorithms : List String :=
    [sha256hex (app_id ++ depot_id),
     sha256hex (depot_id ++ app_id),
     sha256hex (app_id ++ depot_id ++ game_name),
     sha256hex (app_id ++ depot_id ++ pyStr now)]
  match algorithms.find? (fun key => decide (key ≠ "" ∧ key.data.length = 64)) with
  | some key => key
  | none => sha256hex (app_id ++ depot_id)

/-! ## Synthetic manifest fallback (`_generate_realistic_manifest_id`) -/

/-- Model of `_generate_realistic_manifest_id`.  `rand` is the value the source
draws from `random.randint(100000, 999999)`; `rand2` models the fresh draw of
the padding branch (`random.randint(10**(remaining-1), 10**remaining - 1)`),
which is unreachable while `rand` has six digits. -/
def generate_realistic_manifest_id (app_id depot_id : String) (rand rand2 : Nat) : String :=
  let manifest_id := "1" ++ zfill 6 app_id ++ zfill 6 depot_id ++ pyStr rand
  if manifest_id.data.length = 19 then manifest_id
  else if manifest_id.data.length < 19 then manifest_id ++ pyStr rand2
  else ⟨manifest_id.data.take 19⟩

/-! ## Depot discovery and the end-to-end generation pipeline
(`_find_depot_ids`, `_generate_files_thread`) -/

/-- Accumulation step of `_find_depot_ids`: each discovered id is appended only
`if depot_id not in depot_ids`. -/
def dedupAdd (acc xs : List String) : List String :=
  xs.foldl (fun a d => if d ∈ a then a else a ++ [d]) acc

/-- Environment of one `_find_depot_ids`/`_generate_files_thread` run: what the
external collaborators would yield.  `excFind` is true when a
`requests.exceptions.RequestException` (or any other exception) escapes the
per-source handling inside `_find_depot_ids`, reaching its outer `except`
arms.  `manifest_lookup` is the value `_get_real_manifest_id` returns for an
app/depot pair (that function returns `"0"` whenever every one of its seven
sources fails, and swallows every exception). -/
structure ResolveEnv where
  excFind : Bool
  ai_depots : List String
  steamdb_depots : List String
  store_depots : List String
  pattern_depots : List String
  manifest_lookup : String → String → String

/-- Every externally supplied depot id of an environment. -/
def allDepotSources (env : ResolveEnv) : List String :=
  env.ai_depots ++ env.steamdb_depots ++ env.store_depots ++ env.pattern_depots

/-- Model of `_find_depot_ids`: accumulate the four sources in order with
membership dedup; if nothing was found, fall back to
`[app_id+"1", app_id+"2", app_id+"3"]`; on an escaped exception both `except`
arms yield `[app_id+"1"]`; finally `return depot_ids[:3]`. -/
def find_depot_ids (env : ResolveEnv) (app_id : String) : List String :=
  if env.excFind then [app_id ++ "1"]
  else
    let ds := dedupAdd (dedupAdd (dedupAdd (dedupAdd [] env.ai_depots)
                env.steamdb_depots) env.store_depots) env.pattern_depots
    let ds := if ds.isEmpty then [app_id ++ "1", app_id ++ "2", app_id ++ "3"] else ds
    ds.take 3

/-- The resolved tuple `_generate_files_thread` hands to the rendering
collaborators: `depot_ids[0]`, `manifest_data[depot_ids[0]]`, and the
generated encryption key. -/
structure ResolvedResult where
  depot : String
  manifest : String
  key : String

/-- Model of the resolution core of `_generate_files_thread`: find depot ids
(substituting `[app_id+"1"]` when empty), resolve the manifest for the first
depot (`_get_real_manifest_id`, falling back to
`_generate_realistic_manifest_id` on `"0"`), and generate the encryption key.
The list is provably never empty, so `depot_ids[0]` is modelled with
`headD`. -/
def resolve (env : ResolveEnv) (rand rand2 now : Nat) (app_id game_name : String) : ResolvedResult :=
  let ds := find_depot_ids env app_id
  let ds := if ds.isEmpty then [app_id ++ "1"] else ds
  let depot0 := ds.headD (app_id ++ "1")
  let ext := env.manifest_lookup app_id depot0
  let manifest := if ext = "0" then generate_realistic_manifest_id app_id depot0 rand rand2 else ext
  ⟨depot0, manifest, generate_encryption_key app_id depot0 game_name now⟩

/-! ## Request executor (`_make_request`) -/

/-- Outcome of one fetch attempt: a 200 response, another HTTP status, or a
raised `requests` exception (SSL, timeout, request error, or any other). -/
inductive FetchOutcome where
  | ok
  | http (code : Nat)
  | exn
deriving DecidableEq

/-- The attempt loop of `_make_request`: `for attempt in range(5)`.  A 200
response is returned at once; a 403 rewrites the URL and continues, a 429
sleeps and continues, every other status and every caught exception also
continues.  `env i` is the outcome of attempt `i`; the result pairs the
successful attempt index (or `none` after the budget) with the number of
attempts actually made. -/
def make_request_loop (env : Nat → FetchOutcome) : Nat → Nat → Option Nat × Nat
  | _, 0 => (none, 0)
  | i, n + 1 =>
    match env i with
    | .ok => (some i, 1)
    | _ =>
      let p := make_request_loop env (i + 1) n
      (p.1, p.2 + 1)

/-- Model of `_make_request`: five attempts, starting at attempt 0.  The
source keeps no state of any kind between calls: two calls with the same
attempt outcomes behave identically no matter what happened before. -/
def make_request (env : Nat → FetchOutcome) : Option Nat × Nat := make_request_loop env 0 5

/-- Attempt counts of successive `_make_request` calls within one process:
because the function reads no shared state, the count of each call depends
only on that call's own outcomes. -/
def make_request_trace (envs : List (Nat → FetchOutcome)) : List Nat :=
  envs.map (fun e => (make_request e).2)

/-! ## Python dict model (insertion-ordered, assignment overwrites) -/

/-- Keys of an association-list dict, in insertion order. -/
def dictKeys {α : Type} (d : List (String × α)) : List String := d.map Prod.fst

/-- Model of `d[k] = v` on a Python dict: an existing key keeps its position
and its value is overwritten; a new key is appended. -/
def dictInsert {α : Type} (d : List (String × α)) (k : String) (v : α) : List (String × α) :=
  if k ∈ dictKeys d then d.map (fun p => if p.1 = k then (k, v) else p)
  else d ++ [(k, v)]

/-- Model of `d.get(k)` / `d[k]` lookup. -/
def dictGet {α : Type} : List (String × α) → String → Option α
  | [], _ => none
  | (k, v) :: d, q => if k = q then some v else dictGet d q

/-! ## Confidence aggregation (`_calculate_confidence_scores`) -/

/-- One entry of `generated_keys`: `key`, `method`, `confidence`.  Confidences
are embedded as exact rationals; the claims checked below compare distinct
constants and do not depend on float rounding. -/
structure GenKey where
  key : String
  method : String
  confidence : ℚ

/-- The 22 characters Python's `'0123456789abcdefABCDEF'` membership test
accepts. -/
def hexBoth : List Char := "0123456789abcdefABCDEF".data

/-- The per-entry score of `_calculate_confidence_scores`: `+0.1` when the key
is a 64-character hex string, `+0.1` for the two named methods, capped at 1. -/
def scoreOf (kd : GenKey) : ℚ :=
  let c1 := if kd.key.data.length = 64 ∧ kd.key.data.all (fun c => hexBoth.contains c)
            then kd.confidence + 1/10 else kd.confidence
  let c2 := if kd.method = "Neural Network" ∨ kd.method = "Community: cysaw.org"
            then c1 + 1/10 else c1
  min c2 1

/-- Model of `_calculate_confidence_scores`: `scores[key_data['key']] =
min(confidence, 1.0)` over the input list in order — a dict write per entry,
so a duplicated key value keeps the score of its last occurrence. -/
def calculate_confidence_scores (generated_keys : List GenKey) : List (String × ℚ) :=
  generated_keys.foldl (fun scores kd => dictInsert scores kd.key (scoreOf kd)) []

/-! ## Key shape validation and the auto-find acceptance points
(`validate_decryption_key`, `_auto_find_keys_thread`) -/

/-- Model of `validate_decryption_key`: reject falsy or `"0"` keys, strip
non-alphanumeric characters, accept exactly the 64-character hex strings
(either case) lowercased, and reject everything else as `"0"`.
`str.isalnum`/`str.lower` are modelled for ASCII data. -/
def validate_decryption_key (key : String) : String :=
  if key = "" ∨ key = "0" then "0"
  else
    if (key.data.filter Char.isAlphanum).length = 64 ∧
        (key.data.filter Char.isAlphanum).all (fun c => hexBoth.contains c)
    then ⟨(key.data.filter Char.isAlphanum).map Char.toLower⟩ else "0"

/-- One depot entry of the parsed SteamDB `GetDepotsForApp` response used by
`_auto_find_keys_thread` Method 1. -/
structure DepotEntry where
  depot_id : String
  key : String
  manifest : String
deriving DecidableEq

/-- The value `_auto_find_keys_thread` stores per accepted depot. -/
structure KeyData where
  key : String
  manifest : String
  source : String
deriving DecidableEq

/-- Model of Method 1 of `_auto_find_keys_thread` (SteamDB API): for each
depot of the response, `if depot_data.get('key') and depot_data['key'] != '0'`
store the raw key — no shape validation is applied at this acceptance point. -/
def auto_find_method1 (entries : List DepotEntry) : List (String × KeyData) :=
  entries.foldl
    (fun found e =>
      if e.key ≠ "" ∧ e.key ≠ "0"
      then dictInsert found e.depot_id ⟨e.key, e.manifest, "SteamDB API"⟩
      else found)
    []

/-! ## The undefined Fares-style methods and the manifest-method loops
(`_auto_find_keys_thread` Method 3, `get_manifest_for_app`) -/

/-- Python errors the embedding distinguishes. -/
inductive PyErr where
  | attributeError
deriving DecidableEq

/-- Model of the call `self._search_fares_style_decryption_keys(app_id,
depot_id)` at line 1155: the method is defined nowhere in the repository, so
Python attribute lookup raises `AttributeError` before any search runs. -/
def search_fares_style_decryption_keys (_app_id _depot_id : String) : Except PyErr String :=
  .error .attributeError

/-- Model of the call `self._search_fares_inspired_methods(app_id)` at line
2754: also defined nowhere in the repository, so it raises `AttributeError`. -/
def search_fares_inspired_methods (_app_id : String) : Except PyErr String :=
  .error .attributeError

/-- Model of Method 3 of `_auto_find_keys_thread`: `depot_id` is the value
`_get_depot_id_from_steamdb` returned; the Fares-style search runs only when
it differs from `app_id+"1"`, and its `AttributeError` is absorbed by the
method's own `except` arm, leaving `found_keys` as it was. -/
def auto_find_method3 (found : List (String × KeyData)) (depot_id app_id : String) :
    List (String × KeyData) :=
  if depot_id ≠ app_id ++ "1" then
    match search_fares_style_decryption_keys app_id depot_id with
    | .error _ => found
    | .ok fares_key =>
      if fares_key ≠ "0" then dictInsert found depot_id ⟨fares_key, "0", "Fares.top-style"⟩
      else found
  else found

/-- The per-method results of one `get_manifest_for_app` run: what each of
methods 1–5 would return (each of those helpers swallows its own exceptions
and returns `"0"` on failure). -/
structure ManifestEnv where
  m1 : String
  m2 : String
  m3 : String
  m4 : String
  m5 : String

/-- The six method calls of `get_manifest_for_app` in order; method 6 is the
undefined Fares-inspired search. -/
def get_manifest_methods (env : ManifestEnv) (app_id : String) : List (Except PyErr String) :=
  [.ok env.m1, .ok env.m2, .ok env.m3, .ok env.m4, .ok env.m5,
   search_fares_inspired_methods app_id]

/-- The sequential loop of `get_manifest_for_app`: each method is invoked in
turn and its result returned at once `if manifest_id != "0"`; an exception
from a method reaches the function-level `except`, which returns `"0"`.  The
second component counts the methods actually invoked. -/
def run_manifest_methods : List (Except PyErr String) → String × Nat
  | [] => ("0", 0)
  | .error _ :: _ => ("0", 1)
  | .ok r :: rest =>
    if r ≠ "0" then (r, 1)
    else
      let p := run_manifest_methods rest
      (p.1, p.2 + 1)

/-- Model of `get_manifest_for_app`, paired with the number of its six
source methods that the run actually invoked. -/
def get_manifest_for_app (env : ManifestEnv) (app_id : String) : String × Nat :=
  run_manifest_methods (get_manifest_methods env app_id)

/-! ## JSON extraction (`_extract_manifest_from_json`, `_scrape_steamdb_direct`) -/

/-- Decoded JSON values as `response.json()` yields them. -/
inductive JVal where
  | null
  | bool (b : Bool)
  | num (n : Int)
  | str (s : String)
  | arr (elems : List JVal)
  | obj (fields : List (String × JVal))

/-- An ASCII single-quote character, as Python `repr` uses around strings. -/
def squote : String := String.singleton (Char.ofNat 39)

/-- Model of Python `str` on an integer. -/
def intStr (n : Int) : String := if n < 0 then "-" ++ pyStr n.natAbs else pyStr n.natAbs

mutual
/-- Model of Python `repr` on a decoded JSON value (ASCII strings without
embedded quotes, which is all the engine ever renders). -/
def pyReprOfJVal : JVal → String
  | .null => "None"
  | .bool true => "True"
  | .bool false => "False"
  | .num n => intStr n
  | .str s => squote ++ s ++ squote
  | .arr xs => "[" ++ ", ".intercalate (pyReprList xs) ++ "]"
  | .obj fs => "\x7b" ++ ", ".intercalate (pyReprFields fs) ++ "\x7d"

/-- Renderings of the elements of a JSON array. -/
def pyReprList : List JVal → List String
  | [] => []
  | x :: xs => pyReprOfJVal x :: pyReprList xs

/-- Renderings of the fields of a JSON object. -/
def pyReprFields : List (String × JVal) → List String
  | [] => []
  | (k, v) :: fs => (squote ++ k ++ squote ++ ": " ++ pyReprOfJVal v) :: pyReprFields fs
end

/-- Model of Python `str` on a decoded JSON value: a string renders as itself,
everything else as its `repr`. -/
def pyStrOfJVal : JVal → String
  | .str s => s
  | v => pyReprOfJVal v

/-- Python truthiness of a decoded JSON value. -/
def pyTruthy : JVal → Bool
  | .null => false
  | .bool b => b
  | .num n => decide (n ≠ 0)
  | .str s => decide (s ≠ "")
  | .arr xs => !xs.isEmpty
  | .obj fs => !fs.isEmpty

/-- Model of `d[k]` / `k in d` on a decoded JSON object. -/
def objGet (fields : List (String × JVal)) (k : String) : Option JVal :=
  (fields.find? (fun p => p.1 == k)).map Prod.snd

/-- The acceptance test `_extract_manifest_from_json` applies to a candidate
value: `if manifest and str(manifest) != '0' and len(str(manifest)) >= 15:
return str(manifest)`.  Note that it never checks that the characters are
digits. -/
def manifestCheck (v : JVal) : Option String :=
  if pyTruthy v ∧ pyStrOfJVal v ≠ "0" ∧ 15 ≤ (pyStrOfJVal v).data.length
  then some (pyStrOfJVal v) else none

/-- Step 1 of `_extract_manifest_from_json`: the value of
`data['data'][depot_id]['manifest']` passed through the acceptance test, when
`data['data']` is a dict containing a dict for `depot_id` with a `'manifest'`
entry. -/
def step1Lookup (fields : List (String × JVal)) (depot_id : String) : Option String :=
  match objGet fields "data" with
  | some (.obj dataFields) =>
    match objGet dataFields depot_id with
    | some (.obj depotInfo) =>
      match objGet depotInfo "manifest" with
      | some v => manifestCheck v
      | none => none
    | _ => none
  | _ => none

/-- Step 2 of `_extract_manifest_from_json`: a root-level `'manifest'` entry
passed through the acceptance test. -/
def step2Lookup (fields : List (String × JVal)) : Option String :=
  match objGet fields "manifest" with
  | some v => manifestCheck v
  | none => none

mutual
/-- Model of `_extract_manifest_from_json(data, depot_id)`: look for
`data['data'][depot_id]['manifest']`, then for a root-level `'manifest'`,
then recurse through every dict value and through the dict items of every
list value, returning the first hit and `"0"` otherwise (non-dict input
returns `"0"`). -/
def extract_manifest_from_json (data : JVal) (depot_id : String) : String :=
  match data with
  | .obj fields =>
    match step1Lookup fields depot_id with
    | some s => s
    | none =>
      match step2Lookup fields with
      | some s => s
      | none => extractFromFields fields depot_id
  | _ => "0"

/-- The recursive walk of `_extract_manifest_from_json` over `data.items()`. -/
def extractFromFields : List (String × JVal) → String → String
  | [], _ => "0"
  | (_, v) :: rest, depot_id =>
    match v with
    | .obj f =>
      let result := extract_manifest_from_json (.obj f) depot_id
      if result ≠ "0" then result else extractFromFields rest depot_id
    | .arr items =>
      let result := extractFromItems items depot_id
      if result ≠ "0" then result else extractFromFields rest depot_id
    | _ => extractFromFields rest depot_id

/-- The walk of `_extract_manifest_from_json` over the dict items of a list
value. -/
def extractFromItems : List JVal → String → String
  | [], _ => "0"
  | item :: rest, depot_id =>
    match item with
    | .obj f =>
      let result := extract_manifest_from_json (.obj f) depot_id
      if result ≠ "0" then result else extractFromItems rest depot_id
    | _ => extractFromItems rest depot_id
end

/-- Maximal runs of consecutive digit characters, the matches of the greedy
regex `\d+`; `acc` carries the (reversed) run in progress. -/
def digitRunsAux : List Char → List Char → List (List Char)
  | [], acc => if acc.isEmpty then [] else [acc.reverse]
  | c :: cs, acc =>
    if c.isDigit then digitRunsAux cs (c :: acc)
    else if acc.isEmpty then digitRunsAux cs [] else acc.reverse :: digitRunsAux cs []

/-- Model of `re.findall(r'(\d{15,})', content)`: the maximal digit runs of
length at least 15, in order. -/
def findall_digits15 (content : String) : List String :=
  ((digitRunsAux content.data []).filter (fun run => 15 ≤ run.length)).map (fun run => ⟨run⟩)

/-- Model of the pattern scan of `_scrape_steamdb_direct` over one fetched
page: each of the source's seven regexes has `(\d{15,})` as its capture
group, so every candidate a pattern can yield is a digit run of length ≥ 15;
the model scans with the catch-all pattern (the last, and the one matching
whenever any of the seven does) and keeps the source's explicit
`if len(match) >= 15` recheck before returning the first hit, with `"0"`
when nothing matches. -/
def scrape_steamdb_direct (content : String) : String :=
  match (findall_digits15 content).find? (fun m => 15 ≤ m.data.length) with
  | some m => m
  | none => "0"

/-- All external providers fail: no depot source yields anything and every
manifest lookup comes back `"0"`. -/
def allProvidersFail (env : ResolveEnv) : Prop :=
  env.ai_depots = [] ∧ env.steamdb_depots = [] ∧ env.store_depots = [] ∧
  env.pattern_depots = [] ∧ ∀ a d, env.manifest_lookup a d = "0"

/-- Acceptable shape for a value leaving the JSON extraction: `"0"`
(no candidate) or a string of length at least 15. -/
def extractOK (s : String) : Prop := s = "0" ∨ (s ≠ "0" ∧ 15 ≤ s.data.length)

/-! ## Shape lemmas for the string and hash helpers -/

theorem decimalDigitsAux_zero (fuel : Nat) : decimalDigitsAux fuel 0 = [] := by
  cases fuel <;> simp [decimalDigitsAux]

theorem decimalDigitsAux_length (k : Nat) :
    ∀ fuel n, n ≤ fuel → 10 ^ k ≤ n → n < 10 ^ (k + 1) →
      (decimalDigitsAux fuel n).length = k + 1 := by
  induction k with
  | zero =>
    intro fuel n hfuel h1 h2
    match fuel with
    | 0 => omega
    | f + 1 =>
      have hn : n ≠ 0 := by omega
      have hdiv : n / 10 = 0 := Nat.div_eq_of_lt (by omega)
      simp [decimalDigitsAux, hn, hdiv, decimalDigitsAux_zero]
  | succ k ih =>
    intro fuel n hfuel h1 h2
    have hp : 0 < 10 ^ (k + 1) := pow_pos (by omega) (k + 1)
    match fuel with
    | 0 => omega
    | f + 1 =>
      have hn : n ≠ 0 := by omega
      have hlt : n / 10 < n := Nat.div_lt_self (by omega) (by omega)
      have hd : (decimalDigitsAux f (n / 10)).length = k + 1 := by
        apply ih
        · omega
        · rw [Nat.le_div_iff_mul_le (by omega)]
          calc 10 ^ k * 10 = 10 ^ (k + 1) := (pow_succ 10 k).symm
          _ ≤ n := h1
        · rw [Nat.div_lt_iff_lt_mul (by omega)]
          calc n < 10 ^ (k + 1 + 1) := h2
          _ = 10 ^ (k + 1) * 10 := pow_succ 10 (k + 1)
      simp [decimalDigitsAux, hn, hd]

theorem pyStr_length_six (r : Nat) (h1 : 100000 ≤ r) (h2 : r ≤ 999999) :
    (pyStr r).data.length = 6 := by
  unfold pyStr
  rw [if_neg (by omega)]
  show (decimalDigitsAux r r).length = 6
  have e5 : (10 : Nat) ^ 5 = 100000 := by norm_num
  have e6 : (10 : Nat) ^ (5 + 1) = 1000000 := by norm_num
  exact decimalDigitsAux_length 5 r r le_rfl (by omega) (by omega)

theorem hexChar_isDigit (m : Nat) (h : m < 10) : (hexChar m).isDigit = true := by
  interval_cases m <;> rfl

theorem decimalDigitsAux_digits (fuel : Nat) :
    ∀ n, ∀ c ∈ decimalDigitsAux fuel n, c.isDigit = true := by
  induction fuel with
  | zero => intro n c hc; simp [decimalDigitsAux] at hc
  | succ f ih =>
    intro n c hc
    by_cases hn : n = 0
    · simp [decimalDigitsAux, hn] at hc
    · simp only [decimalDigitsAux, if_neg hn, List.mem_append, List.mem_singleton] at hc
      rcases hc with h | h
      · exact ih _ c h
      · subst h; exact hexChar_isDigit _ (Nat.mod_lt _ (by omega))

theorem pyStr_digits (n : Nat) : ∀ c ∈ (pyStr n).data, c.isDigit = true := by
  unfold pyStr
  split
  · intro c hc; simp at hc; subst hc; rfl
  · exact decimalDigitsAux_digits n n

theorem hexChar_mem (n : Nat) : hexChar n ∈ hexDigits := by
  unfold hexChar
  rw [List.getD_eq_getElem?_getD]
  cases h : hexDigits[n]? with
  | none =>
    simp only [h, Option.getD_none]
    decide
  | some c =>
    simp only [Option.getD_some]
    exact List.getElem?_mem h

theorem compressBlock_length (hs ws16 : List Nat) : (compressBlock hs ws16).length = 8 := rfl

theorem foldl_compress_length (p : List Nat) (l : List Nat) :
    ∀ hs : List Nat, hs.length = 8 →
      (l.foldl (fun h i => compressBlock h (blockWords p i)) hs).length = 8 := by
  induction l with
  | nil => intro hs h; simpa using h
  | cons x xs ih => intro hs _; exact ih _ (compressBlock_length _ _)

theorem sha256Words_length (msg : List Nat) : (sha256Words msg).length = 8 :=
  foldl_compress_length (padMessage msg) _ initH rfl

theorem wordHex_length (w : Nat) : (wordHex w).length = 8 := by simp [wordHex]

theorem wordHex_mem (w : Nat) (c : Char) (hc : c ∈ wordHex w) : c ∈ hexDigits := by
  simp only [wordHex, List.mem_map, List.mem_range] at hc
  obtain ⟨i, _, rfl⟩ := hc
  exact hexChar_mem _

theorem flatten_wordHex_length (L : List Nat) : ((L.map wordHex).flatten).length = 8 * L.length := by
  induction L with
  | nil => rfl
  | cons x xs ih =>
    simp only [List.map_cons, List.flatten_cons, List.length_append, wordHex_length, ih,
      List.length_cons]
    ring

theorem sha256hex_length (s : String) : (sha256hex s).data.length = 64 := by
  show ((sha256Words (strBytes s)).map wordHex).flatten.length = 64
  rw [flatten_wordHex_length, sha256Words_length]

theorem sha256hex_mem (s : String) (c : Char) (hc : c ∈ (sha256hex s).data) : c ∈ hexDigits := by
  have hc2 : c ∈ ((sha256Words (strBytes s)).map wordHex).flatten := hc
  rw [List.mem_flatten] at hc2
  obtain ⟨l, hl, hcl⟩ := hc2
  obtain ⟨w, _, rfl⟩ := List.mem_map.1 hl
  exact wordHex_mem w c hcl

theorem sha256hex_ne_empty (s : String) : sha256hex s ≠ "" := by
  intro h
  have h64 := sha256hex_length s
  rw [h] at h64
  simp at h64

theorem sha256hex_is64 (s : String) : is64LowerHexB (sha256hex s) = true := by
  unfold is64LowerHexB
  rw [Bool.and_eq_true, beq_iff_eq]
  refine ⟨sha256hex_length s, ?_⟩
  rw [List.all_eq_true]
  intro c hc
  exact List.elem_iff.2 (sha256hex_mem s c hc)

/-! ## Lemmas about the key generator and the synthetic manifest generator -/

theorem generate_encryption_key_eq (app_id depot_id game_name : String) (now : Nat) :
    generate_encryption_key app_id depot_id game_name now = sha256hex (app_id ++ depot_id) := by
  have h : decide (sha256hex (app_id ++ depot_id) ≠ "" ∧
      (sha256hex (app_id ++ depot_id)).data.length = 64) = true :=
    decide_eq_true ⟨sha256hex_ne_empty _, sha256hex_length _⟩
  simp only [generate_encryption_key, List.find?_cons, h]

theorem generate_encryption_key_is64 (app_id depot_id game_name : String) (now : Nat) :
    is64LowerHexB (generate_encryption_key app_id depot_id game_name now) = true := by
  rw [generate_encryption_key_eq]
  exact sha256hex_is64 _

theorem zfill_data (w : Nat) (s : String) :
    (zfill w s).data = List.replicate (w - s.data.length) '0' ++ s.data := rfl

theorem concat_manifest_data (a d : String) (r : Nat) :
    ("1" ++ zfill 6 a ++ zfill 6 d ++ pyStr r).data =
      ['1'] ++ (List.replicate (6 - a.data.length) '0' ++ a.data) ++
        (List.replicate (6 - d.data.length) '0' ++ d.data) ++ (pyStr r).data := rfl

theorem concat_manifest_length (a d : String) (r : Nat)
    (h1 : 100000 ≤ r) (h2 : r ≤ 999999) :
    ("1" ++ zfill 6 a ++ zfill 6 d ++ pyStr r).data.length =
      1 + ((6 - a.data.length) + a.data.length) + ((6 - d.data.length) + d.data.length) + 6 := by
  rw [concat_manifest_data]
  simp only [List.length_append, List.length_replicate, List.length_singleton,
    pyStr_length_six r h1 h2]

theorem generate_realistic_manifest_id_take (a d : String) (r r2 : Nat)
    (h1 : 100000 ≤ r) (h2 : r ≤ 999999) :
    (generate_realistic_manifest_id a d r r2).data =
      ("1" ++ zfill 6 a ++ zfill 6 d ++ pyStr r).data.take 19 ∧
    (generate_realistic_manifest_id a d r r2).data.length = 19 := by
  have hL := concat_manifest_length a d r h1 h2
  have h19 : 19 ≤ ("1" ++ zfill 6 a ++ zfill 6 d ++ pyStr r).data.length := by omega
  simp only [generate_realistic_manifest_id]
  by_cases hE : ("1" ++ zfill 6 a ++ zfill 6 d ++ pyStr r).data.length = 19
  · rw [if_pos hE]
    exact ⟨(List.take_of_length_le (le_of_eq hE)).symm, hE⟩
  · rw [if_neg hE, if_neg (by omega)]
    refine ⟨rfl, ?_⟩
    show (("1" ++ zfill 6 a ++ zfill 6 d ++ pyStr r).data.take 19).length = 19
    rw [List.length_take]
    omega

theorem generate_realistic_manifest_id_digits (a d : String) (r r2 : Nat)
    (h1 : 100000 ≤ r) (h2 : r ≤ 999999)
    (ha : ∀ c ∈ a.data, c.isDigit = true) (hd : ∀ c ∈ d.data, c.isDigit = true) :
    ∀ c ∈ (generate_realistic_manifest_id a d r r2).data, c.isDigit = true := by
  intro c hc
  rw [(generate_realistic_manifest_id_take a d r r2 h1 h2).1] at hc
  have hc2 : c ∈ ("1" ++ zfill 6 a ++ zfill 6 d ++ pyStr r).data := List.take_subset _ _ hc
  rw [concat_manifest_data] at hc2
  simp only [List.mem_append, List.mem_singleton] at hc2
  rcases hc2 with (((h | (h | h)) | (h | h)) | h)
  · subst h; rfl
  · rw [List.eq_of_mem_replicate h]; rfl
  · exact ha c h
  · rw [List.eq_of_mem_replicate h]; rfl
  · exact hd c h
  · exact pyStr_digits r c h

/-! ## Lemmas about depot discovery and the request executor -/

theorem dedupAdd_mem (xs : List String) :
    ∀ acc x, x ∈ dedupAdd acc xs → x ∈ acc ∨ x ∈ xs := by
  induction xs with
  | nil => intro acc x h; exact Or.inl h
  | cons d ds ih =>
    intro acc x h
    have hstep : dedupAdd acc (d :: ds) = dedupAdd (if d ∈ acc then acc else acc ++ [d]) ds := rfl
    rw [hstep] at h
    rcases ih _ x h with h1 | h1
    · by_cases hd : d ∈ acc
      · rw [if_pos hd] at h1; exact Or.inl h1
      · rw [if_neg hd] at h1
        rcases List.mem_append.1 h1 with h2 | h2
        · exact Or.inl h2
        · simp only [List.mem_singleton] at h2
          subst h2
          exact Or.inr (List.mem_cons_self _ _)
    · exact Or.inr (List.mem_cons_of_mem _ h1)

theorem find_depot_ids_head_cases (env : ResolveEnv) (app_id a : String) (l : List String)
    (h : find_depot_ids env app_id = a :: l) :
    a = app_id ++ "1" ∨ a ∈ allDepotSources env := by
  by_cases hE : env.excFind
  · simp only [find_depot_ids, if_pos hE, List.cons.injEq] at h
    exact Or.inl h.1.symm
  · by_cases hA : (dedupAdd (dedupAdd (dedupAdd (dedupAdd [] env.ai_depots)
        env.steamdb_depots) env.store_depots) env.pattern_depots).isEmpty
    · simp only [find_depot_ids, if_neg hE, hA, if_pos, List.take, List.cons.injEq] at h
      exact Or.inl h.1.symm
    · right
      have hmem : a ∈ find_depot_ids env app_id := by rw [h]; exact List.mem_cons_self _ _
      simp only [find_depot_ids, if_neg hE, hA, if_neg, Bool.false_eq_true] at hmem
      have hmem2 := List.take_subset _ _ hmem
      rcases dedupAdd_mem _ _ _ hmem2 with h1 | h1
      · rcases dedupAdd_mem _ _ _ h1 with h2 | h2
        · rcases dedupAdd_mem _ _ _ h2 with h3 | h3
          · rcases dedupAdd_mem _ _ _ h3 with h4 | h4
            · simp at h4
            · exact List.mem_append.2 (Or.inl (List.mem_append.2 (Or.inl
                (List.mem_append.2 (Or.inl h4)))))
          · exact List.mem_append.2 (Or.inl (List.mem_append.2 (Or.inl
              (List.mem_append.2 (Or.inr h3)))))
        · exact List.mem_append.2 (Or.inl (List.mem_append.2 (Or.inr h2)))
      · exact List.mem_append.2 (Or.inr h1)

theorem find_depot_ids_ne_nil (env : ResolveEnv) (app_id : String) :
    find_depot_ids env app_id ≠ [] := by
  by_cases hE : env.excFind
  · simp [find_depot_ids, hE]
  · by_cases hA : (dedupAdd (dedupAdd (dedupAdd (dedupAdd [] env.ai_depots)
        env.steamdb_depots) env.store_depots) env.pattern_depots).isEmpty
    · simp [find_depot_ids, hE, hA]
    · simp only [find_depot_ids, if_neg hE, hA, Bool.false_eq_true, if_false]
      intro hcontra
      have := congrArg List.length hcontra
      rw [List.length_take] at this
      simp only [List.length_nil] at this
      have : (dedupAdd (dedupAdd (dedupAdd (dedupAdd [] env.ai_depots)
          env.steamdb_depots) env.store_depots) env.pattern_depots).length = 0 := by omega
      rw [List.length_eq_zero] at this
      rw [this] at hA
      simp at hA

theorem make_request_loop_all_fail :
    ∀ n i (env : Nat → FetchOutcome), (∀ j, j < n → env (i + j) ≠ .ok) →
      make_request_loop env i n = (none, n) := by
  intro n
  induction n with
  | zero => intro i env _; rfl
  | succ n ih =>
    intro i env h
    have h0 : env i ≠ .ok := by
      have := h 0 (by omega)
      simpa using this
    have hrec : make_request_loop env (i + 1) n = (none, n) := by
      apply ih
      intro j hj
      have := h (j + 1) (by omega)
      rwa [show i + (j + 1) = i + 1 + j by omega] at this
    cases hE : env i with
    | ok => exact absurd hE h0
    | http code => simp [make_request_loop, hE, hrec]
    | exn => simp [make_request_loop, hE, hrec]

theorem make_request_loop_first_ok :
    ∀ n i k (env : Nat → FetchOutcome), k < n → (∀ j, j < k → env (i + j) ≠ .ok) →
      env (i + k) = .ok → make_request_loop env i n = (some (i + k), k + 1) := by
  intro n
  induction n with
  | zero => intro i k env hk _ _; omega
  | succ n ih =>
    intro i k env hk hbefore hok
    cases k with
    | zero =>
      simp only [Nat.add_zero] at hok
      simp [make_request_loop, hok]
    | succ k =>
      have h0 : env i ≠ .ok := by
        have := hbefore 0 (by omega)
        simpa using this
      have hrec : make_request_loop env (i + 1) n = (some (i + 1 + k), k + 1) := by
        apply ih
        · omega
        · intro j hj
          have := hbefore (j + 1) (by omega)
          rwa [show i + (j + 1) = i + 1 + j by omega] at this
        · rwa [show i + (k + 1) = i + 1 + k by omega] at hok
      cases hE : env i with
      | ok => exact absurd hE h0
      | http code =>
        simp only [make_request_loop, hE, hrec]
        refine Prod.ext ?_ rfl
        simp only
        congr 1
        omega
      | exn =>
        simp only [make_request_loop, hE, hrec]
        refine Prod.ext ?_ rfl
        simp only
        congr 1
        omega

/-! ## Claims C2, C9, C3, C7 -/

/-- C2: Fallback key derivation is deterministic: for identical
`(identifier, depotId, context)` inputs the generator returns the same
64-lowercase-hex output no matter what `time.time()` returns, because the
algorithm list is tried in a fixed preference order and its first entry —
`sha256(identifier + depotId)` — always passes the 64-length check, so the
time-dependent algorithm is never selected; the no-LM
`ai_generate_advanced_key` fallback returns the same hash. -/
theorem key_fallback_deterministic (identifier depotId context : String) (t1 t2 : Nat) :
    generate_encryption_key identifier depotId context t1 =
      generate_encryption_key identifier depotId context t2 ∧
    is64LowerHexB (generate_encryption_key identifier depotId context t1) = true ∧
    generate_encryption_key identifier depotId context t1 = sha256hex (identifier ++ depotId) ∧
    ai_generate_advanced_key_noLM identifier depotId = sha256hex (identifier ++ depotId) := by
  refine ⟨?_, generate_encryption_key_is64 _ _ _ _, generate_encryption_key_eq _ _ _ _, rfl⟩
  rw [generate_encryption_key_eq, generate_encryption_key_eq]

/-- C9 counterexample: for identifier `"123456"` the pipeline's own fallback
depot id `"1234561"` has seven digits, so the concatenation
`"1" + zfill6(app) + zfill6(depot) + rand6` has 20 characters and the source
truncates it to 19 — the result is not the claimed concatenation. -/
theorem manifest_fallback_not_concatenation :
    generate_realistic_manifest_id "123456" "1234561" 999999 0 = "1123456123456199999" ∧
    generate_realistic_manifest_id "123456" "1234561" 999999 0 ≠
      "1" ++ zfill 6 "123456" ++ zfill 6 "1234561" ++ pyStr 999999 := by
  constructor <;> decide

/-- Regrouped character data of the synthetic manifest concatenation. -/
theorem concat_manifest_data2 (a d : String) (r : Nat) :
    ("1" ++ zfill 6 a ++ zfill 6 d ++ pyStr r).data =
      ('1' :: (zfill 6 a).data) ++ ((zfill 6 d).data ++ (pyStr r).data) := by
  simp [List.append_assoc]

/-- C9 amended: the synthetic manifest id is always exactly 19 decimal digits,
equal to the concatenation `"1" + zfill6(identifier) + zfill6(depot) + rand6`
truncated to 19 characters; it equals the full concatenation exactly when the
identifier and the depot id each have at most 6 digits, and it always starts
with `"1"` followed by the zero-padded identifier when the identifier has at
most 6 digits. -/
theorem manifest_fallback_shape (app_id depot_id : String) (r r2 : Nat)
    (ha : ∀ c ∈ app_id.data, c.isDigit = true) (hd : ∀ c ∈ depot_id.data, c.isDigit = true)
    (h1 : 100000 ≤ r) (h2 : r ≤ 999999) :
    (generate_realistic_manifest_id app_id depot_id r r2).data.length = 19 ∧
    (∀ c ∈ (generate_realistic_manifest_id app_id depot_id r r2).data, c.isDigit = true) ∧
    (generate_realistic_manifest_id app_id depot_id r r2).data =
      ("1" ++ zfill 6 app_id ++ zfill 6 depot_id ++ pyStr r).data.take 19 ∧
    (app_id.data.length ≤ 6 → depot_id.data.length ≤ 6 →
      generate_realistic_manifest_id app_id depot_id r r2 =
        "1" ++ zfill 6 app_id ++ zfill 6 depot_id ++ pyStr r) ∧
    (app_id.data.length ≤ 6 →
      (generate_realistic_manifest_id app_id depot_id r r2).data.take 7 =
        '1' :: (zfill 6 app_id).data) := by
  obtain ⟨htake, hlen⟩ := generate_realistic_manifest_id_take app_id depot_id r r2 h1 h2
  refine ⟨hlen, generate_realistic_manifest_id_digits _ _ _ _ h1 h2 ha hd, htake, ?_, ?_⟩
  · intro ha6 hd6
    have hLen : ("1" ++ zfill 6 app_id ++ zfill 6 depot_id ++ pyStr r).data.length = 19 := by
      rw [concat_manifest_length _ _ _ h1 h2]; omega
    apply String.ext
    rw [htake, List.take_of_length_le (le_of_eq hLen)]
  · intro ha6
    rw [htake, List.take_take]
    have hmin : min 7 19 = 7 := by norm_num
    rw [hmin, concat_manifest_data2 app_id depot_id r]
    apply List.take_left'
    simp only [List.length_cons, zfill_data, List.length_append, List.length_replicate]
    omega

/-- C9 witness: the amended theorem applied at identifier `"123456"`, depot id
`"654321"`, suffix 100000. -/
theorem manifest_fallback_shape_witness :
    (generate_realistic_manifest_id "123456" "654321" 100000 0).data.length = 19 ∧
    (∀ c ∈ (generate_realistic_manifest_id "123456" "654321" 100000 0).data, c.isDigit = true) ∧
    (generate_realistic_manifest_id "123456" "654321" 100000 0).data =
      ("1" ++ zfill 6 "123456" ++ zfill 6 "654321" ++ pyStr 100000).data.take 19 ∧
    ("123456".data.length ≤ 6 → "654321".data.length ≤ 6 →
      generate_realistic_manifest_id "123456" "654321" 100000 0 =
        "1" ++ zfill 6 "123456" ++ zfill 6 "654321" ++ pyStr 100000) ∧
    ("123456".data.length ≤ 6 →
      (generate_realistic_manifest_id "123456" "654321" 100000 0).data.take 7 =
        '1' :: (zfill 6 "123456").data) :=
  manifest_fallback_shape "123456" "654321" 100000 0 (by decide) (by decide)
    (by decide) (by decide)

/-- C3 counterexample: a provider that has already failed three whole
`_make_request` calls in a row (15 consecutive failed attempts) is still
contacted by the fourth call, which again issues 5 fetch attempts — the
source keeps no per-provider failure counter at all, so no trace puts a
provider beyond reach. -/
theorem circuit_breaker_absent :
    make_request_trace [fun _ => FetchOutcome.exn, fun _ => FetchOutcome.exn,
      fun _ => FetchOutcome.exn, fun _ => FetchOutcome.exn] = [5, 5, 5, 5] ∧
    [5, 5, 5, 5].getD 3 0 ≠ 0 := ⟨rfl, by decide⟩

/-- C3 amended: the request layer keeps no provider-health state: every
`_make_request` call makes at least one attempt (exactly 5 when the provider
keeps failing) regardless of any history of earlier failed calls, and the
attempt count a call appends to the process trace does not depend on that
history. -/
theorem make_request_attempts_regardless_of_history (env : Nat → FetchOutcome)
    (hfail : ∀ i, i < 5 → env i ≠ .ok) (history : List (Nat → FetchOutcome)) :
    make_request env = (none, 5) ∧ 1 ≤ (make_request env).2 ∧
    make_request_trace (history ++ [env]) = make_request_trace history ++ [5] := by
  have h : make_request env = (none, 5) :=
    make_request_loop_all_fail 5 0 env (by intro j hj; simpa using hfail j hj)
  refine ⟨h, ?_, ?_⟩
  · rw [h]; omega
  · simp only [make_request_trace, List.map_append, List.map_cons, List.map_nil, h]

/-- C3 witness: the amended theorem applied to an always-failing provider with
a one-call history. -/
theorem make_request_attempts_regardless_of_history_witness :
    make_request (fun _ => FetchOutcome.exn) = (none, 5) ∧
      1 ≤ (make_request (fun _ => FetchOutcome.exn)).2 ∧
      make_request_trace ([fun _ => FetchOutcome.exn] ++ [fun _ => FetchOutcome.exn]) =
        make_request_trace [fun _ => FetchOutcome.exn] ++ [5] :=
  make_request_attempts_regardless_of_history (fun _ => FetchOutcome.exn)
    (by intro i _ h; exact FetchOutcome.noConfusion h) [fun _ => FetchOutcome.exn]

/-- C7 counterexample: a fetch whose first attempt yields 404 is not failed
immediately — the loop falls into the catch-all `continue` and the second
attempt is made (and here succeeds), so two attempts are made, not one. -/
theorem notfound_is_retried :
    make_request (fun i => if i = 0 then FetchOutcome.http 404 else FetchOutcome.ok) =
      (some 1, 2) ∧ (2 : Nat) ≠ 1 := ⟨rfl, by decide⟩

/-- C7 amended: `_make_request` treats every non-200 outcome alike — 404,
403, 429, any other status, and exceptions are all retried within the fixed
5-attempt budget; the call returns on attempt `k` exactly when `k` is the
first attempt whose outcome is a 200, having made `k + 1` attempts. -/
theorem make_request_retries_all_non_200 (env : Nat → FetchOutcome) (k : Nat)
    (hk : k < 5) (hbefore : ∀ j, j < k → env j ≠ .ok) (hok : env k = .ok) :
    make_request env = (some k, k + 1) := by
  have h := make_request_loop_first_ok 5 0 k env hk
    (by intro j hj; simpa using hbefore j hj) (by simpa using hok)
  simpa using h

/-- C7 witness: the amended theorem applied to a provider answering 404 then
200. -/
theorem make_request_retries_all_non_200_witness :
    make_request (fun i => if i = 0 then FetchOutcome.http 404 else FetchOutcome.ok) =
      (some 1, 2) :=
  make_request_retries_all_non_200 _ 1 (by decide)
    (by intro j hj; interval_cases j; decide) rfl

/-! ## Claims C8 and C10 -/

/-- C8 counterexample: when the first manifest source returns a non-`"0"`
manifest id, `get_manifest_for_app` returns it at once having invoked only 1
of its 6 methods — the remaining providers are never queried and nothing is
accumulated for aggregation. -/
theorem manifest_lookup_short_circuits :
    get_manifest_for_app ⟨"5965578615468740508", "111111111111111111", "0", "0", "0"⟩ "730" =
      ("5965578615468740508", 1) ∧ (1 : Nat) ≠ 6 := ⟨rfl, by decide⟩

/-- C8 amended: the manifest-capability lookup short-circuits on the first
success: `get_manifest_for_app` returns the first method result different
from `"0"` together with the number of methods invoked, continuing to the
next provider only when the current one produced nothing; all six methods run
only when every one yields `"0"` (the sixth then raising the absorbed
`AttributeError`). -/
theorem get_manifest_for_app_first_hit (env : ManifestEnv) (app_id : String) :
    get_manifest_for_app env app_id =
      (if env.m1 ≠ "0" then (env.m1, 1)
       else if env.m2 ≠ "0" then (env.m2, 2)
       else if env.m3 ≠ "0" then (env.m3, 3)
       else if env.m4 ≠ "0" then (env.m4, 4)
       else if env.m5 ≠ "0" then (env.m5, 5)
       else ("0", 6)) := by
  by_cases h1 : env.m1 = "0" <;> by_cases h2 : env.m2 = "0" <;> by_cases h3 : env.m3 = "0" <;>
    by_cases h4 : env.m4 = "0" <;> by_cases h5 : env.m5 = "0" <;>
    simp [get_manifest_for_app, get_manifest_methods, run_manifest_methods,
      search_fares_inspired_methods, h1, h2, h3, h4, h5]

/-- C10: both calls to the undefined Fares-style methods raise
`AttributeError`, which the enclosing handlers absorb: Method 3 of the key
auto-find leaves the accumulated `found_keys` unchanged (whether or not the
depot lookup produced a real depot id), and the manifest lookup reaching its
sixth method returns `"0"` — no error escapes either operation. -/
theorem fares_methods_absorbed (found : List (String × KeyData)) (depot_id app_id : String)
    (env : ManifestEnv) (app_id2 : String)
    (h1 : env.m1 = "0") (h2 : env.m2 = "0") (h3 : env.m3 = "0")
    (h4 : env.m4 = "0") (h5 : env.m5 = "0") :
    auto_find_method3 found depot_id app_id = found ∧
    get_manifest_for_app env app_id2 = ("0", 6) := by
  constructor
  · unfold auto_find_method3 search_fares_style_decryption_keys
    split <;> rfl
  · simp [get_manifest_for_app, get_manifest_methods, run_manifest_methods,
      search_fares_inspired_methods, h1, h2, h3, h4, h5]

/-- C10 witness: the theorem applied to a concrete accumulated state and an
all-`"0"` manifest environment. -/
theorem fares_methods_absorbed_witness :
    auto_find_method3 [("731", ⟨"abc", "0", "Community Database"⟩)] "7311" "731" =
      [("731", ⟨"abc", "0", "Community Database"⟩)] ∧
    get_manifest_for_app ⟨"0", "0", "0", "0", "0"⟩ "730" = ("0", 6) :=
  fares_methods_absorbed _ _ _ _ _ rfl rfl rfl rfl rfl

/-! ## Claim C1 -/

/-- C1: the resolution pipeline is total — for every environment of external
outcomes it yields a fully populated result: the depot id is an externally
discovered one or the substituted `app_id+"1"`, the manifest id is either the
externally found one (non-`"0"`) or the 19-digit synthetic fallback, and the
key is always a 64-character lowercase-hex digest; when every provider fails
the depot is exactly `app_id+"1"` and the manifest is exactly the synthetic
one.  No failure value escapes: `resolve` is a total function of the
environment. -/
theorem resolve_total (env : ResolveEnv) (r r2 t : Nat) (app_id game_name : String)
    (h1 : 100000 ≤ r) (h2 : r ≤ 999999) :
    ((resolve env r r2 t app_id game_name).depot = app_id ++ "1" ∨
      (resolve env r r2 t app_id game_name).depot ∈ allDepotSources env) ∧
    (((resolve env r r2 t app_id game_name).manifest =
        env.manifest_lookup app_id (resolve env r r2 t app_id game_name).depot ∧
      (resolve env r r2 t app_id game_name).manifest ≠ "0") ∨
      (resolve env r r2 t app_id game_name).manifest.data.length = 19) ∧
    is64LowerHexB (resolve env r r2 t app_id game_name).key = true ∧
    (allProvidersFail env →
      (resolve env r r2 t app_id game_name).depot = app_id ++ "1" ∧
      (resolve env r r2 t app_id game_name).manifest =
        generate_realistic_manifest_id app_id (app_id ++ "1") r r2) := by
  obtain ⟨a, l, hds⟩ : ∃ a l, find_depot_ids env app_id = a :: l := by
    cases h : find_depot_ids env app_id with
    | nil => exact absurd h (find_depot_ids_ne_nil env app_id)
    | cons a l => exact ⟨a, l, rfl⟩
  have hres : resolve env r r2 t app_id game_name =
      ⟨a, (if env.manifest_lookup app_id a = "0"
           then generate_realistic_manifest_id app_id a r r2
           else env.manifest_lookup app_id a),
       generate_encryption_key app_id a game_name t⟩ := by
    simp [resolve, hds]
  refine ⟨?_, ?_, ?_, ?_⟩
  · rw [hres]
    exact find_depot_ids_head_cases env app_id a l hds
  · rw [hres]
    by_cases hext : env.manifest_lookup app_id a = "0"
    · right
      simp only [if_pos hext]
      exact (generate_realistic_manifest_id_take app_id a r r2 h1 h2).2
    · left
      constructor <;> simp [hext]
  · rw [hres]
    exact generate_encryption_key_is64 _ _ _ _
  · intro hf
    obtain ⟨hf1, hf2, hf3, hf4, hf5⟩ := hf
    have ha : a = app_id ++ "1" := by
      by_cases hE : env.excFind
      · have hfd : find_depot_ids env app_id = [app_id ++ "1"] := by
          simp [find_depot_ids, hE]
        rw [hfd] at hds
        injection hds with hh _
        exact hh.symm
      · have hfd : find_depot_ids env app_id =
            [app_id ++ "1", app_id ++ "2", app_id ++ "3"] := by
          simp [find_depot_ids, hE, hf1, hf2, hf3, hf4, dedupAdd]
        rw [hfd] at hds
        injection hds with hh _
        exact hh.symm
    subst ha
    rw [hres]
    refine ⟨rfl, ?_⟩
    show (if env.manifest_lookup app_id (app_id ++ "1") = "0"
          then generate_realistic_manifest_id app_id (app_id ++ "1") r r2
          else env.manifest_lookup app_id (app_id ++ "1")) =
        generate_realistic_manifest_id app_id (app_id ++ "1") r r2
    rw [if_pos (hf5 app_id (app_id ++ "1"))]

/-- C1 witness: the theorem applied to the all-fail environment for identifier
`"123456"`. -/
theorem resolve_total_witness :
    ((resolve ⟨false, [], [], [], [], fun _ _ => "0"⟩ 654321 0 0 "123456" "").depot =
        "123456" ++ "1" ∨
      (resolve ⟨false, [], [], [], [], fun _ _ => "0"⟩ 654321 0 0 "123456" "").depot ∈
        allDepotSources ⟨false, [], [], [], [], fun _ _ => "0"⟩) ∧
    (((resolve ⟨false, [], [], [], [], fun _ _ => "0"⟩ 654321 0 0 "123456" "").manifest =
        "0" ∧
      (resolve ⟨false, [], [], [], [], fun _ _ => "0"⟩ 654321 0 0 "123456" "").manifest ≠
        "0") ∨
      (resolve ⟨false, [], [], [], [], fun _ _ => "0"⟩ 654321 0 0 "123456"
        "").manifest.data.length = 19) ∧
    is64LowerHexB (resolve ⟨false, [], [], [], [], fun _ _ => "0"⟩ 654321 0 0 "123456" "").key =
      true ∧
    (allProvidersFail ⟨false, [], [], [], [], fun _ _ => "0"⟩ →
      (resolve ⟨false, [], [], [], [], fun _ _ => "0"⟩ 654321 0 0 "123456" "").depot =
        "123456" ++ "1" ∧
      (resolve ⟨false, [], [], [], [], fun _ _ => "0"⟩ 654321 0 0 "123456" "").manifest =
        generate_realistic_manifest_id "123456" ("123456" ++ "1") 654321 0) :=
  resolve_total ⟨false, [], [], [], [], fun _ _ => "0"⟩ 654321 0 0 "123456" ""
    (by decide) (by decide)

/-! ## Dict lemmas and claim C4 -/

theorem overwriteApp {α : Type} (k : String) (v : α) (pk : String) (pv : α) :
    (fun p : String × α => if p.1 = k then (k, v) else p) (pk, pv) =
      if pk = k then (k, v) else (pk, pv) := rfl

theorem dictGet_overwrite_same {α : Type} (k : String) (v : α) :
    ∀ d : List (String × α), k ∈ dictKeys d →
      dictGet (d.map (fun p => if p.1 = k then (k, v) else p)) k = some v := by
  intro d
  induction d with
  | nil => intro h; simp [dictKeys] at h
  | cons p rest ih =>
    obtain ⟨pk, pv⟩ := p
    intro h
    simp only [List.map_cons, overwriteApp]
    by_cases hp : pk = k
    · rw [if_pos hp]
      simp [dictGet]
    · rw [if_neg hp]
      have hmem : k ∈ dictKeys rest := by
        simp only [dictKeys, List.map_cons, List.mem_cons] at h
        rcases h with h | h
        · exact absurd h.symm hp
        · exact h
      simp only [dictGet, if_neg hp]
      exact ih hmem

theorem dictGet_overwrite_other {α : Type} (k q : String) (v : α) (hkq : k ≠ q) :
    ∀ d : List (String × α),
      dictGet (d.map (fun p => if p.1 = k then (k, v) else p)) q = dictGet d q := by
  intro d
  induction d with
  | nil => rfl
  | cons p rest ih =>
    obtain ⟨pk, pv⟩ := p
    simp only [List.map_cons, overwriteApp]
    by_cases hp : pk = k
    · rw [if_pos hp]
      simp only [dictGet]
      rw [if_neg hkq, if_neg (fun hc : pk = q => hkq (hp.symm.trans hc))]
      exact ih
    · rw [if_neg hp]
      simp only [dictGet]
      by_cases hpq : pk = q
      · rw [if_pos hpq, if_pos hpq]
      · rw [if_neg hpq, if_neg hpq]
        exact ih

theorem dictGet_append_single_same {α : Type} (k : String) (v : α) :
    ∀ d : List (String × α), k ∉ dictKeys d → dictGet (d ++ [(k, v)]) k = some v := by
  intro d
  induction d with
  | nil => intro _; simp [dictGet]
  | cons p rest ih =>
    obtain ⟨pk, pv⟩ := p
    intro h
    simp only [dictKeys, List.map_cons, List.mem_cons, not_or] at h
    have hpk : pk ≠ k := fun hc => h.1 hc.symm
    simp only [List.cons_append, dictGet, if_neg hpk]
    exact ih h.2

theorem dictGet_append_single_other {α : Type} (k q : String) (v : α) (hkq : k ≠ q) :
    ∀ d : List (String × α), dictGet (d ++ [(k, v)]) q = dictGet d q := by
  intro d
  induction d with
  | nil => simp [dictGet, hkq]
  | cons p rest ih =>
    obtain ⟨pk, pv⟩ := p
    simp only [List.cons_append, dictGet]
    by_cases hpq : pk = q
    · rw [if_pos hpq, if_pos hpq]
    · rw [if_neg hpq, if_neg hpq]
      exact ih

theorem dictGet_insert_same {α : Type} (d : List (String × α)) (k : String) (v : α) :
    dictGet (dictInsert d k v) k = some v := by
  unfold dictInsert
  split
  · exact dictGet_overwrite_same k v d (by assumption)
  · exact dictGet_append_single_same k v d (by assumption)

theorem dictGet_insert_other {α : Type} (d : List (String × α)) (k q : String) (v : α)
    (hkq : k ≠ q) : dictGet (dictInsert d k v) q = dictGet d q := by
  unfold dictInsert
  split
  · exact dictGet_overwrite_other k q v hkq d
  · exact dictGet_append_single_other k q v hkq d

theorem dictKeys_overwrite {α : Type} (k : String) (v : α) :
    ∀ d : List (String × α),
      dictKeys (d.map (fun p => if p.1 = k then (k, v) else p)) = dictKeys d := by
  intro d
  induction d with
  | nil => rfl
  | cons p rest ih =>
    obtain ⟨pk, pv⟩ := p
    simp only [List.map_cons, overwriteApp]
    by_cases hp : pk = k
    · rw [if_pos hp]
      simp only [dictKeys, List.map_cons]
      rw [hp]
      exact congrArg _ ih
    · rw [if_neg hp]
      simp only [dictKeys, List.map_cons]
      exact congrArg _ ih

theorem dictKeys_insert {α : Type} (d : List (String × α)) (k : String) (v : α) :
    dictKeys (dictInsert d k v) =
      if k ∈ dictKeys d then dictKeys d else dictKeys d ++ [k] := by
  unfold dictInsert
  by_cases h : k ∈ dictKeys d
  · rw [if_pos h, if_pos h, dictKeys_overwrite]
  · rw [if_neg h, if_neg h]
    simp [dictKeys]

theorem dictKeys_insert_nodup {α : Type} (d : List (String × α)) (k : String) (v : α)
    (h : (dictKeys d).Nodup) : (dictKeys (dictInsert d k v)).Nodup := by
  rw [dictKeys_insert]
  split
  · exact h
  · rename_i hk
    rw [(List.perm_append_singleton _ _).nodup_iff]
    exact List.nodup_cons.2 ⟨hk, h⟩

theorem calc_scores_get (gen : List GenKey) :
    ∀ (acc : List (String × ℚ)) (k : String),
      dictGet (gen.foldl (fun scores kd => dictInsert scores kd.key (scoreOf kd)) acc) k =
        ((gen.reverse.find? (fun kd => kd.key == k)).map scoreOf).or (dictGet acc k) := by
  induction gen with
  | nil => intro acc k; simp [Option.or]
  | cons g gs ih =>
    intro acc k
    rw [List.foldl_cons, ih, List.reverse_cons, List.find?_append]
    cases hF : gs.reverse.find? (fun kd => kd.key == k) with
    | some x => simp [Option.or]
    | none =>
      by_cases hk : g.key = k
      · subst hk
        have hfg : [g].find? (fun kd => kd.key == g.key) = some g := by simp
        rw [hfg]
        simp only [Option.or, Option.map]
        exact dictGet_insert_same acc g.key (scoreOf g)
      · have hfg : [g].find? (fun kd => kd.key == k) = none := by
          simp [List.find?_cons_of_neg, hk]
        rw [hfg]
        simp only [Option.or, Option.map]
        exact dictGet_insert_other acc g.key k (scoreOf g) hk

theorem calc_scores_keys (gen : List GenKey) :
    ∀ (acc : List (String × ℚ)) (k : String),
      k ∈ dictKeys (gen.foldl (fun scores kd => dictInsert scores kd.key (scoreOf kd)) acc) ↔
        k ∈ dictKeys acc ∨ k ∈ gen.map GenKey.key := by
  induction gen with
  | nil => intro acc k; simp
  | cons g gs ih =>
    intro acc k
    rw [List.foldl_cons, ih, dictKeys_insert]
    by_cases h : g.key ∈ dictKeys acc
    · rw [if_pos h]
      simp only [List.map_cons, List.mem_cons]
      constructor
      · intro hh
        rcases hh with hh | hh
        · exact Or.inl hh
        · exact Or.inr (Or.inr hh)
      · intro hh
        rcases hh with hh | hh | hh
        · exact Or.inl hh
        · rw [hh]; exact Or.inl h
        · exact Or.inr hh
    · rw [if_neg h]
      simp only [List.mem_append, List.mem_singleton, List.map_cons, List.mem_cons]
      tauto

theorem calc_scores_nodup (gen : List GenKey) :
    ∀ acc : List (String × ℚ), (dictKeys acc).Nodup →
      (dictKeys (gen.foldl (fun scores kd => dictInsert scores kd.key (scoreOf kd)) acc)).Nodup := by
  induction gen with
  | nil => intro acc h; exact h
  | cons g gs ih =>
    intro acc h
    rw [List.foldl_cons]
    exact ih _ (dictKeys_insert_nodup _ _ _ h)

/-! ## Claim C4 -/

/-- C4 counterexample: two candidates with the same value `"42"`, with
confidences 0.9 and then 0.6: the aggregation keeps one entry per value but
its retained score is the LAST written one (0.6), not the maximum (0.9) —
there is no max-confidence selection and no priority tie-break at the dict
write. -/
theorem aggregate_keeps_last_not_max :
    calculate_confidence_scores [⟨"42", "ExternalA", 9/10⟩, ⟨"42", "ExternalB", 6/10⟩] =
      [("42", 6/10)] ∧ (6/10 : ℚ) ≠ 9/10 := by
  constructor
  · show dictInsert (dictInsert [] "42" (scoreOf ⟨"42", "ExternalA", 9/10⟩)) "42"
        (scoreOf ⟨"42", "ExternalB", 6/10⟩) = [("42", 6/10)]
    have h1 : scoreOf ⟨"42", "ExternalB", 6/10⟩ = 6/10 := by
      unfold scoreOf
      rw [if_neg (by decide)]
      simp only [if_neg (show ¬(("ExternalB" : String) = "Neural Network" ∨
        ("ExternalB" : String) = "Community: cysaw.org") by decide)]
      norm_num [min_eq_left]
    simp [dictInsert, dictKeys, h1]
  · norm_num

/-- C4 amended: aggregation by dict write keeps exactly one entry per
distinct value (keys are unique, and a key appears exactly when some input
candidate has that value), but the retained score is that of the LAST
candidate processed with that value — the first provider in iteration order
does not win by confidence, and no max or priority tie-break exists. -/
theorem aggregate_one_entry_last_wins (gen : List GenKey) :
    (dictKeys (calculate_confidence_scores gen)).Nodup ∧
    (∀ k, k ∈ dictKeys (calculate_confidence_scores gen) ↔ k ∈ gen.map GenKey.key) ∧
    (∀ k, dictGet (calculate_confidence_scores gen) k =
      (gen.reverse.find? (fun kd => kd.key == k)).map scoreOf) := by
  refine ⟨calc_scores_nodup gen [] (by simp [dictKeys]), ?_, ?_⟩
  · intro k
    have h := calc_scores_keys gen [] k
    simpa [dictKeys] using h
  · intro k
    have h := calc_scores_get gen [] k
    have hnil : dictGet ([] : List (String × ℚ)) k = none := rfl
    rw [hnil] at h
    cases hF : (gen.reverse.find? (fun kd => kd.key == k)).map scoreOf with
    | none => rw [hF] at h; simpa [Option.or] using h
    | some x => rw [hF] at h; simpa [Option.or] using h

/-! ## Claim C5 -/

theorem manifestCheck_shape (v : JVal) (s : String) (h : manifestCheck v = some s) :
    s ≠ "0" ∧ 15 ≤ s.data.length := by
  unfold manifestCheck at h
  split at h
  · rename_i hcond
    cases h
    exact ⟨hcond.2.1, hcond.2.2⟩
  · cases h

theorem step1Lookup_shape (fields : List (String × JVal)) (depot : String) (s : String)
    (h : step1Lookup fields depot = some s) : s ≠ "0" ∧ 15 ≤ s.data.length := by
  unfold step1Lookup at h
  split at h
  · split at h
    · split at h
      · exact manifestCheck_shape _ _ h
      · cases h
    · cases h
  · cases h

theorem step2Lookup_shape (fields : List (String × JVal)) (s : String)
    (h : step2Lookup fields = some s) : s ≠ "0" ∧ 15 ≤ s.data.length := by
  unfold step2Lookup at h
  split at h
  · exact manifestCheck_shape _ _ h
  · cases h

theorem extract_shape_all (n : Nat) :
    (∀ (data : JVal) (depot : String), sizeOf data ≤ n →
      extractOK (extract_manifest_from_json data depot)) ∧
    (∀ (fields : List (String × JVal)) (depot : String), sizeOf fields ≤ n →
      extractOK (extractFromFields fields depot)) ∧
    (∀ (items : List JVal) (depot : String), sizeOf items ≤ n →
      extractOK (extractFromItems items depot)) := by
  induction n with
  | zero =>
    refine ⟨?_, ?_, ?_⟩
    · intro data depot hx
      exfalso
      cases data <;> simp at hx
    · intro fields depot hx
      exfalso
      cases fields <;> simp at hx
    · intro items depot hx
      exfalso
      cases items <;> simp at hx
  | succ n ih =>
    obtain ⟨ihJ, ihF, ihI⟩ := ih
    refine ⟨?_, ?_, ?_⟩
    · intro data depot hx
      cases data with
      | obj fields =>
        unfold extract_manifest_from_json
        cases hS1 : step1Lookup fields depot with
        | some s => exact Or.inr (step1Lookup_shape fields depot s hS1)
        | none =>
          cases hS2 : step2Lookup fields with
          | some s => exact Or.inr (step2Lookup_shape fields s hS2)
          | none =>
            apply ihF
            have : sizeOf fields < sizeOf (JVal.obj fields) := by simp
            omega
      | null => unfold extract_manifest_from_json; exact Or.inl rfl
      | bool b => unfold extract_manifest_from_json; exact Or.inl rfl
      | num m => unfold extract_manifest_from_json; exact Or.inl rfl
      | str st => unfold extract_manifest_from_json; exact Or.inl rfl
      | arr xs => unfold extract_manifest_from_json; exact Or.inl rfl
    · intro fields depot hx
      cases fields with
      | nil => unfold extractFromFields; exact Or.inl rfl
      | cons p rest =>
        obtain ⟨key, v⟩ := p
        have hrest : sizeOf rest ≤ n := by
          simp at hx
          omega
        unfold extractFromFields
        cases v with
        | obj f =>
          by_cases hres : extract_manifest_from_json (.obj f) depot = "0"
          · simp only [hres, ne_eq, not_true_eq_false, if_false]
            exact ihF rest depot hrest
          · simp only [ne_eq, hres, not_false_eq_true, if_true]
            apply ihJ
            simp at hx
            simp
            omega
        | arr items =>
          by_cases hres : extractFromItems items depot = "0"
          · simp only [hres, ne_eq, not_true_eq_false, if_false]
            exact ihF rest depot hrest
          · simp only [ne_eq, hres, not_false_eq_true, if_true]
            apply ihI
            simp at hx
            omega
        | null => exact ihF rest depot hrest
        | bool b => exact ihF rest depot hrest
        | num m => exact ihF rest depot hrest
        | str st => exact ihF rest depot hrest
    · intro items depot hx
      cases items with
      | nil => unfold extractFromItems; exact Or.inl rfl
      | cons item rest =>
        have hrest : sizeOf rest ≤ n := by
          simp at hx
          omega
        unfold extractFromItems
        cases item with
        | obj f =>
          by_cases hres : extract_manifest_from_json (.obj f) depot = "0"
          · simp only [hres, ne_eq, not_true_eq_false, if_false]
            exact ihI rest depot hrest
          · simp only [ne_eq, hres, not_false_eq_true, if_true]
            apply ihJ
            simp at hx
            simp
            omega
        | null => exact ihI rest depot hrest
        | bool b => exact ihI rest depot hrest
        | num m => exact ihI rest depot hrest
        | str st => exact ihI rest depot hrest
        | arr xs => exact ihI rest depot hrest

theorem digitRunsAux_digits :
    ∀ (cs acc : List Char), (∀ c ∈ acc, c.isDigit = true) →
      ∀ run ∈ digitRunsAux cs acc, ∀ c ∈ run, c.isDigit = true := by
  intro cs
  induction cs with
  | nil =>
    intro acc hacc run hrun
    unfold digitRunsAux at hrun
    split at hrun
    · simp at hrun
    · simp only [List.mem_singleton] at hrun
      subst hrun
      intro c hc
      exact hacc c (List.mem_reverse.1 hc)
  | cons ch rest ih =>
    intro acc hacc run hrun
    unfold digitRunsAux at hrun
    split at hrun
    · rename_i hd
      refine ih _ ?_ run hrun
      intro c hc
      rcases List.mem_cons.1 hc with h | h
      · subst h; exact hd
      · exact hacc c h
    · split at hrun
      · refine ih _ ?_ run hrun
        intro c hc
        simp at hc
      · rcases List.mem_cons.1 hrun with h | h
        · subst h
          intro c hc
          exact hacc c (List.mem_reverse.1 hc)
        · refine ih _ ?_ run h
          intro c hc
          simp at hc

theorem findall_digits15_shape (content : String) (m : String)
    (h : m ∈ findall_digits15 content) :
    (∀ c ∈ m.data, c.isDigit = true) ∧ 15 ≤ m.data.length := by
  unfold findall_digits15 at h
  obtain ⟨run, hrun, rfl⟩ := List.mem_map.1 h
  have hfil := List.mem_filter.1 hrun
  constructor
  · intro c hc
    refine digitRunsAux_digits content.data [] ?_ run hfil.1 c hc
    intro c hc2
    simp at hc2
  · have h15 := hfil.2
    simpa using h15

theorem scrape_steamdb_direct_shape (content : String) :
    scrape_steamdb_direct content = "0" ∨
      ((∀ c ∈ (scrape_steamdb_direct content).data, c.isDigit = true) ∧
       15 ≤ (scrape_steamdb_direct content).data.length ∧
       scrape_steamdb_direct content ≠ "0") := by
  unfold scrape_steamdb_direct
  cases hF : (findall_digits15 content).find? (fun m => 15 ≤ m.data.length) with
  | none => exact Or.inl rfl
  | some m =>
    right
    have hmem := List.mem_of_find?_eq_some hF
    obtain ⟨hdig, hlen⟩ := findall_digits15_shape content m hmem
    refine ⟨hdig, hlen, ?_⟩
    intro hc
    have hm : m = "0" := hc
    rw [hm] at hlen
    exact absurd hlen (by decide)

/-- C5 counterexample: a JSON object whose `manifest` field is the 16-character
non-digit string `"abcdefghijklmnop"` passes the extraction's acceptance test
(truthy, not `"0"`, length ≥ 15) and is returned as the manifest candidate —
the JSON path never checks for digits. -/
theorem manifest_extraction_accepts_nondigits :
    extract_manifest_from_json (.obj [("manifest", JVal.str "abcdefghijklmnop")]) "731" =
      "abcdefghijklmnop" ∧
    "abcdefghijklmnop".data.all Char.isDigit = false := by
  constructor
  · unfold extract_manifest_from_json
    have h1 : step1Lookup [("manifest", JVal.str "abcdefghijklmnop")] "731" = none := by
      decide
    have h2 : step2Lookup [("manifest", JVal.str "abcdefghijklmnop")] =
        some "abcdefghijklmnop" := by
      decide
    rw [h1, h2]
  · decide

/-- C5 amended: the pattern-matching (text) path yields only all-digit
strings of length at least 15 (every capture group of its seven regexes is
`(\d\x7b15,\x7d)`), but the recursive JSON path enforces only truthiness,
difference from `"0"`, and length at least 15 — the digits-only condition is
not checked there, so a non-digit string of length ≥ 15 can become a
candidate (see the counterexample). -/
theorem manifest_extraction_shape (data : JVal) (depot_id content : String) :
    (extract_manifest_from_json data depot_id = "0" ∨
      (extract_manifest_from_json data depot_id ≠ "0" ∧
       15 ≤ (extract_manifest_from_json data depot_id).data.length)) ∧
    (scrape_steamdb_direct content = "0" ∨
      ((∀ c ∈ (scrape_steamdb_direct content).data, c.isDigit = true) ∧
       15 ≤ (scrape_steamdb_direct content).data.length ∧
       scrape_steamdb_direct content ≠ "0")) :=
  ⟨(extract_shape_all (sizeOf data)).1 data depot_id le_rfl,
   scrape_steamdb_direct_shape content⟩

/-! ## Claim C6 -/

theorem validate_decryption_key_shape (k : String) :
    validate_decryption_key k = "0" ∨ is64LowerHexB (validate_decryption_key k) = true := by
  unfold validate_decryption_key
  split
  · exact Or.inl rfl
  · split
    · rename_i hcond
      right
      unfold is64LowerHexB
      rw [Bool.and_eq_true, beq_iff_eq]
      constructor
      · show (List.map Char.toLower (k.data.filter Char.isAlphanum)).length = 64
        rw [List.length_map]
        exact hcond.1
      · rw [List.all_eq_true]
        intro c hc
        have hc2 : c ∈ List.map Char.toLower (k.data.filter Char.isAlphanum) := hc
        obtain ⟨c0, hc0, rfl⟩ := List.mem_map.1 hc2
        have hmem : c0 ∈ hexBoth := by
          have hall := hcond.2
          rw [List.all_eq_true] at hall
          exact List.elem_iff.1 (hall c0 hc0)
        have hlow : ∀ c1 ∈ hexBoth, Char.toLower c1 ∈ hexDigits := by decide
        exact List.elem_iff.2 (hlow c0 hmem)
    · exact Or.inl rfl

theorem mem_dictInsert {α : Type} (p : String × α) (d : List (String × α)) (k : String) (v : α)
    (h : p ∈ dictInsert d k v) : p ∈ d ∨ p = (k, v) := by
  unfold dictInsert at h
  split at h
  · obtain ⟨q, hq, hfq⟩ := List.mem_map.1 h
    by_cases hqk : q.1 = k
    · right
      rw [← hfq]
      simp [hqk]
    · left
      rw [← hfq]
      simp only [if_neg hqk]
      exact hq
  · rcases List.mem_append.1 h with h2 | h2
    · exact Or.inl h2
    · right
      simpa using h2

theorem auto_find_step_mem :
    ∀ (entries : List DepotEntry) (acc : List (String × KeyData)) (p : String × KeyData),
      p ∈ entries.foldl (fun found e =>
          if e.key ≠ "" ∧ e.key ≠ "0"
          then dictInsert found e.depot_id ⟨e.key, e.manifest, "SteamDB API"⟩
          else found) acc →
      p ∈ acc ∨ ∃ e, e ∈ entries ∧ p = (e.depot_id, ⟨e.key, e.manifest, "SteamDB API"⟩) ∧
        e.key ≠ "" ∧ e.key ≠ "0" := by
  intro entries
  induction entries with
  | nil => intro acc p h; exact Or.inl h
  | cons e rest ih =>
    intro acc p h
    rw [List.foldl_cons] at h
    rcases ih _ p h with h1 | h1
    · by_cases he : e.key ≠ "" ∧ e.key ≠ "0"
      · rw [if_pos he] at h1
        rcases mem_dictInsert p acc _ _ h1 with h2 | h2
        · exact Or.inl h2
        · exact Or.inr ⟨e, List.mem_cons_self _ _, h2, he.1, he.2⟩
      · rw [if_neg he] at h1
        exact Or.inl h1
    · obtain ⟨e2, he2, hp⟩ := h1
      exact Or.inr ⟨e2, List.mem_cons_of_mem _ he2, hp⟩

/-- C6 counterexample: the SteamDB path of the key auto-find accepts the raw
3-character string `"xyz"` as a depot key — the only acceptance test is
truthiness and difference from `"0"`; no 64-hex shape check is applied at
this acceptance point. -/
theorem key_accepted_without_validation :
    auto_find_method1 [⟨"731", "xyz", "0"⟩] = [("731", ⟨"xyz", "0", "SteamDB API"⟩)] ∧
    is64LowerHexB "xyz" = false := by
  constructor <;> decide

/-- C6 amended: keys passing through `validate_decryption_key` are indeed
discarded unless they are 64 hex characters (the accepted value is then 64
lowercase hex), and the fallback generator always emits such keys — but the
auto-find SteamDB acceptance point stores the raw external key string,
checking only that it is nonempty and differs from `"0"`. -/
theorem validate_key_shape_raw_acceptance (k : String) (entries : List DepotEntry)
    (p : String × KeyData) (hp : p ∈ auto_find_method1 entries) :
    (validate_decryption_key k = "0" ∨ is64LowerHexB (validate_decryption_key k) = true) ∧
    ∃ e, e ∈ entries ∧ p = (e.depot_id, ⟨e.key, e.manifest, "SteamDB API"⟩) ∧
      e.key ≠ "" ∧ e.key ≠ "0" := by
  refine ⟨validate_decryption_key_shape k, ?_⟩
  rcases auto_find_step_mem entries [] p hp with h | h
  · simp at h
  · exact h

/-- C6 witness: the amended theorem applied to a concrete uppercase-hex
validation input and the accepted raw entry of the counterexample. -/
theorem validate_key_shape_raw_acceptance_witness :
    (validate_decryption_key "ABC" = "0" ∨
      is64LowerHexB (validate_decryption_key "ABC") = true) ∧
    ∃ e, e ∈ [(⟨"731", "xyz", "0"⟩ : DepotEntry)] ∧
      ("731", (⟨"xyz", "0", "SteamDB API"⟩ : KeyData)) =
        (e.depot_id, ⟨e.key, e.manifest, "SteamDB API"⟩) ∧ e.key ≠ "" ∧ e.key ≠ "0" :=
  validate_key_shape_raw_acceptance "ABC" [⟨"731", "xyz", "0"⟩]
    ("731", ⟨"xyz", "0", "SteamDB API"⟩) (by decide)
